import Mathlib

/-!
Shallow embedding of the trajectory-validation code of the `gcode` repository
(robot motion validation for a Mitsubishi Melfa 6-axis arm), together with
theorems settling the specification claims about it.

Python floats are modelled as exact numbers: `ℚ` where the relevant code is pure
comparison/arithmetic, `ℝ` where the code uses `sqrt`, `atan2` or `pi`.
Python exceptions are modelled by `Except PyError`; a raised exception is
`Except.error e`, a normal return is `Except.ok v`.
-/

/-- The Python exception kinds raised by the embedded code. Distinct constructors
are used for the distinct `ValueError` messages of `circle_util.get_circle_cs` so
that theorems can name the exact failure. `unboundLocal` models Python's
`UnboundLocalError` (reading a local variable that was never assigned). -/
inductive PyError where
  | valueError
  | valueErrorNormalMissing
  | valueErrorNotNormal
  | indexError
  | typeError
  | unboundLocal
  | notImplemented
  | speedBelowMinimum
deriving DecidableEq

instance {ε α : Type} [DecidableEq ε] [DecidableEq α] : DecidableEq (Except ε α) := fun a b =>
  match a, b with
  | .ok x, .ok y =>
    if h : x = y then isTrue (by rw [h]) else isFalse fun hh => h (Except.ok.inj hh)
  | .error x, .error y =>
    if h : x = y then isTrue (by rw [h]) else isFalse fun hh => h (Except.error.inj hh)
  | .ok _, .error _ => isFalse fun hh => Except.noConfusion hh
  | .error _, .ok _ => isFalse fun hh => Except.noConfusion hh

/-- The generator-`all` in `is_point_within_boundaries`:
`all(lower <= i <= upper for i, lower, upper in zip(point, boundaries[::2], boundaries[1::2]))`.
`zip` stops at the shortest input, i.e. when the point list or the boundary pairs run out. -/
def within_all : List ℚ → List ℚ → Bool
  | p :: ps, lower :: upper :: rest =>
    (decide (lower ≤ p) && decide (p ≤ upper)) && within_all ps rest
  | _, _ => true

/-- Embeds `is_point_within_boundaries` (src/prechecks/trajectory_segment.py, lines 9-20):
raises `ValueError` when the boundary list has odd length or is longer than twice the
point list, otherwise tests every point component against its `[lower, upper]` pair. -/
def is_point_within_boundaries (point : List ℚ) (boundaries : List ℚ) : Except PyError Bool :=
  if boundaries.length % 2 ≠ 0 ∨ 2 * point.length < boundaries.length then
    .error .valueError
  else
    .ok (within_all point boundaries)

/-- Embeds `LinearSegment.is_within_cartesian_boundaries`
(src/prechecks/trajectory_segment.py, lines 32-42): checks the first and the last
trajectory point; an empty point list raises `IndexError` at `trajectory_points[0]`.
Both point checks are evaluated before the conjunction, as in the source. -/
def LinearSegment.is_within_cartesian_boundaries (trajectory_points : List (List ℚ))
    (boundaries : List ℚ) : Except PyError Bool :=
  match trajectory_points with
  | [] => .error .indexError
  | p0 :: rest =>
    match is_point_within_boundaries p0 boundaries with
    | .error e => .error e
    | .ok start_inside =>
      match is_point_within_boundaries ((p0 :: rest).getLast (List.cons_ne_nil p0 rest))
          boundaries with
      | .error e => .error e
      | .ok end_inside => .ok (start_inside && end_inside)

/-- Embeds `CircularSegment.is_within_cartesian_boundaries`
(src/prechecks/trajectory_segment.py, lines 45-52):
`all(is_point_within_boundaries(point, boundaries) for point in self.trajectory_points)`,
with Python `all` short-circuiting on the first falsy element. -/
def CircularSegment.is_within_cartesian_boundaries :
    List (List ℚ) → List ℚ → Except PyError Bool
  | [], _ => .ok true
  | p :: rest, boundaries =>
    match is_point_within_boundaries p boundaries with
    | .error e => .error e
    | .ok true => CircularSegment.is_within_cartesian_boundaries rest boundaries
    | .ok false => .ok false

/-- The loop of `JointTrajectorySegment.has_common_configuration`: intersect the running
set with each further waypoint's configuration labels, returning `False` as soon as the
running intersection is empty. -/
def common_configurations_loop (common : Finset ℕ) : List (Finset ℕ) → Bool
  | [] => true
  | s :: rest =>
    let c := common ∩ s
    if c = ∅ then false else common_configurations_loop c rest

/-- Embeds `JointTrajectorySegment.has_common_configuration`
(src/prechecks/trajectory_segment.py, lines 62-76). A `JointSolution` is modelled by its
set of configuration labels (only the dict keys are consulted by the source). The empty
solution list raises `IndexError` at `self.solutions[0]`, modelled by `none`. -/
def JointTrajectorySegment.has_common_configuration : List (Finset ℕ) → Option Bool
  | [] => none
  | s0 :: rest => some (common_configurations_loop s0 rest)

/-- Embeds `JointTrajectorySegment.is_within_joint_limits`
(src/prechecks/trajectory_segment.py, lines 59-60). The source body is the single
statement `pass`, so the method returns Python `None` for every input, despite its
`-> bool` annotation; `None` is modelled by `none`. -/
def JointTrajectorySegment.is_within_joint_limits (solution : List ℚ)
    (boundaries : List ℚ) : Option Bool :=
  none

/-- Modelled from the spec: the membership test that `filterJointLimits` is specified to
apply per joint solution (spec section 4.5: drop any entry "whose angle vector has any
component outside `[min,max]` for that joint"). The function `filter_joint_limits` itself
is imported by src/prechecks/prechecks.py from trajectory_segment but is absent from the
sources. Joint limits are passed as a list of `(min, max)` pairs, one per joint. -/
def is_within_joint_limits_spec : List ℚ → List (ℚ × ℚ) → Bool
  | [], _ => true
  | _, [] => true
  | a :: rest, (lo, hi) :: lims =>
    (decide (lo ≤ a) && decide (a ≤ hi)) && is_within_joint_limits_spec rest lims

lemma within_all_iff (p b : List ℚ) (hlen : b.length ≤ 2 * p.length) :
    within_all p b = true ↔
      ∀ i < b.length / 2,
        b.getD (2 * i) 0 ≤ p.getD i 0 ∧ p.getD i 0 ≤ b.getD (2 * i + 1) 0 := by
  induction p generalizing b with
  | nil =>
    have hb : b = [] := by
      have hz : b.length ≤ 0 := by simpa using hlen
      exact List.eq_nil_of_length_eq_zero (Nat.le_zero.mp hz)
    subst hb
    simp [within_all]
  | cons q ps ih =>
    match b with
    | [] => simp [within_all]
    | [lo] => simp [within_all]
    | lo :: hi :: rest =>
      have hlen' : rest.length ≤ 2 * ps.length := by
        simp only [List.length_cons] at hlen ⊢
        omega
      have hdiv : (lo :: hi :: rest).length / 2 = rest.length / 2 + 1 := by
        simp only [List.length_cons]
        omega
      rw [hdiv]
      simp only [within_all, Bool.and_eq_true, decide_eq_true_eq, ih rest hlen']
      constructor
      · rintro ⟨⟨h1, h2⟩, h3⟩ i hi
        match i with
        | 0 => simpa using ⟨h1, h2⟩
        | (j + 1) =>
          have hj : j < rest.length / 2 := by omega
          have e1 : 2 * (j + 1) = 2 * j + 1 + 1 := by ring
          simpa [List.getD_cons_succ, e1] using h3 j hj
      · intro hall
        refine ⟨?_, fun j hj => ?_⟩
        · simpa using hall 0 (by omega)
        · have hstep := hall (j + 1) (by omega)
          have e1 : 2 * (j + 1) = 2 * j + 1 + 1 := by ring
          simpa [List.getD_cons_succ, e1] using hstep

/-- C9: `is_point_within_boundaries p b` raises `ValueError` iff the boundary list has
odd length or is longer than twice the point list; otherwise it returns `True` iff for
every index `i < len b / 2` the component `p[i]` satisfies `b[2i] ≤ p[i] ≤ b[2i+1]`.
Components of `p` from index `len b / 2` onward are never consulted, so a point whose
trailing components lie outside every bound is still reported as within. -/
theorem is_point_within_boundaries_spec (p b : List ℚ) :
    (is_point_within_boundaries p b = .error .valueError ↔
      b.length % 2 ≠ 0 ∨ 2 * p.length < b.length) ∧
    (b.length % 2 = 0 → b.length ≤ 2 * p.length →
      (is_point_within_boundaries p b = .ok true ↔
        ∀ i < b.length / 2,
          b.getD (2 * i) 0 ≤ p.getD i 0 ∧ p.getD i 0 ≤ b.getD (2 * i + 1) 0)) := by
  refine ⟨?_, ?_⟩
  · by_cases h : b.length % 2 ≠ 0 ∨ 2 * p.length < b.length
    · rw [is_point_within_boundaries, if_pos h]
      exact iff_of_true rfl h
    · rw [is_point_within_boundaries, if_neg h]
      exact iff_of_false (by simp) h
  · intro h1 h2
    have hc : ¬(b.length % 2 ≠ 0 ∨ 2 * p.length < b.length) := by omega
    rw [is_point_within_boundaries, if_neg hc]
    rw [show (Except.ok (within_all p b) : Except PyError Bool) = Except.ok true ↔
        within_all p b = true by simp]
    exact within_all_iff p b h2

/-- Witness for C9: the point `[1, 5]` against boundaries `[0, 2]` — only the first
component is checked (`0 ≤ 1 ≤ 2`); the second component `5` lies outside every bound,
yet the point is reported as within. -/
theorem is_point_within_boundaries_spec_witness :
    is_point_within_boundaries [1, 5] [0, 2] = .ok true :=
  ((is_point_within_boundaries_spec [1, 5] [0, 2]).2 (by decide) (by decide)).mpr
    (by decide)

lemma circular_all_iff (pts : List (List ℚ)) (b : List ℚ) :
    CircularSegment.is_within_cartesian_boundaries pts b = .ok true ↔
      ∀ p ∈ pts, is_point_within_boundaries p b = .ok true := by
  induction pts with
  | nil => simp [CircularSegment.is_within_cartesian_boundaries]
  | cons p rest ih =>
    cases h : is_point_within_boundaries p b with
    | error e => simp [CircularSegment.is_within_cartesian_boundaries, h]
    | ok v =>
      cases v
      · simp [CircularSegment.is_within_cartesian_boundaries, h]
      · simp [CircularSegment.is_within_cartesian_boundaries, h, ih]

/-- C1: a `LinearSegment` is within the cartesian boundaries iff both its first and its
last trajectory point are within them, and a `CircularSegment` is within the cartesian
boundaries iff every trajectory point is within them, where "point within" means
`is_point_within_boundaries` returns `True`. -/
theorem segment_is_within_cartesian_boundaries_spec (pts : List (List ℚ)) (b : List ℚ)
    (h : pts ≠ []) :
    (LinearSegment.is_within_cartesian_boundaries pts b = .ok true ↔
      is_point_within_boundaries (pts.head h) b = .ok true ∧
      is_point_within_boundaries (pts.getLast h) b = .ok true) ∧
    (CircularSegment.is_within_cartesian_boundaries pts b = .ok true ↔
      ∀ p ∈ pts, is_point_within_boundaries p b = .ok true) := by
  refine ⟨?_, circular_all_iff pts b⟩
  match pts with
  | p0 :: rest =>
    simp only [List.head_cons]
    cases h1 : is_point_within_boundaries p0 b with
    | error e => simp [LinearSegment.is_within_cartesian_boundaries, h1]
    | ok v =>
      cases h2 : is_point_within_boundaries ((p0 :: rest).getLast (by simp)) b with
      | error e =>
        cases v <;> simp [LinearSegment.is_within_cartesian_boundaries, h1, h2]
      | ok w =>
        cases v <;> cases w <;>
          simp [LinearSegment.is_within_cartesian_boundaries, h1, h2]

/-- Witness for C1: a two-point segment with both points inside the box. -/
theorem segment_is_within_cartesian_boundaries_spec_witness :
    LinearSegment.is_within_cartesian_boundaries [[0], [1]] [0, 2] = .ok true :=
  ((segment_is_within_cartesian_boundaries_spec [[0], [1]] [0, 2] (by simp)).1).mpr
    (by constructor <;> rfl)

lemma foldl_inter_subset (s : Finset ℕ) (l : List (Finset ℕ)) :
    List.foldl (· ∩ ·) s l ⊆ s := by
  induction l generalizing s with
  | nil => simp
  | cons t rest ih =>
    intro x hx
    rw [List.foldl_cons] at hx
    exact Finset.mem_of_mem_inter_left (ih (s ∩ t) hx)

lemma common_configurations_loop_iff (s : Finset ℕ) (l : List (Finset ℕ)) (hs : s ≠ ∅) :
    common_configurations_loop s l = true ↔ List.foldl (· ∩ ·) s l ≠ ∅ := by
  induction l generalizing s with
  | nil => simpa [common_configurations_loop] using hs
  | cons t rest ih =>
    by_cases h : s ∩ t = ∅
    · have hz : List.foldl (· ∩ ·) (s ∩ t) rest = ∅ :=
        Finset.subset_empty.mp (h ▸ foldl_inter_subset (s ∩ t) rest)
      rw [h] at hz
      simp [common_configurations_loop, h, List.foldl_cons, hz]
    · simp [common_configurations_loop, h, List.foldl_cons, ih (s ∩ t) h]

/-- C2 counterexample: for the single-waypoint solution list whose only waypoint
supports no configuration label, `has_common_configuration` returns `True` even though
the intersection of the configuration labels over all waypoints is empty; this refutes
the claimed equivalence for arbitrary non-empty solution lists. -/
theorem has_common_configuration_counterexample :
    JointTrajectorySegment.has_common_configuration [(∅ : Finset ℕ)] = some true ∧
    List.foldl (· ∩ ·) (∅ : Finset ℕ) [] = ∅ :=
  ⟨rfl, rfl⟩

/-- C2 (amended): for every non-empty list of joint solutions whose first waypoint
supports at least one configuration label, `has_common_configuration` returns `True`
iff the intersection of the configuration labels over all waypoints is non-empty. -/
theorem has_common_configuration_iff (s0 : Finset ℕ) (rest : List (Finset ℕ))
    (h : s0 ≠ ∅) :
    JointTrajectorySegment.has_common_configuration (s0 :: rest) = some true ↔
      List.foldl (· ∩ ·) s0 rest ≠ ∅ := by
  simp [JointTrajectorySegment.has_common_configuration,
    common_configurations_loop_iff s0 rest h]

/-- Witness for C2 (amended), matching the claim's example: waypoint 0 supports labels
`{0, 1}` and waypoint 1 supports `{1, 2}`; the intersection `{1}` is non-empty and the
method returns `True`. -/
theorem has_common_configuration_iff_witness :
    JointTrajectorySegment.has_common_configuration [{0, 1}, {1, 2}] = some true :=
  (has_common_configuration_iff {0, 1} [{1, 2}] (by decide)).mpr (by decide)

/-- C5 (code bug): the membership test `JointTrajectorySegment.is_within_joint_limits`
returns `None` for every solution and every boundary list — its body in the source is
the single statement `pass` — so it never certifies any solution as within the joint
limits, while the spec's membership test accepts the in-bounds solution `[0, 0, 0]`
for joint limits `[-1, 1]` on each of the three joints. -/
theorem is_within_joint_limits_stub :
    (∀ solution boundaries : List ℚ,
      JointTrajectorySegment.is_within_joint_limits solution boundaries = none) ∧
    is_within_joint_limits_spec [0, 0, 0] [(-1, 1), (-1, 1), (-1, 1)] = true :=
  ⟨fun _ _ => rfl, by decide⟩

/-- Modelled from the spec: one joint transform descriptor of the 6-axis arm (spec
section 3 `JointDescriptor`): fixed geometric transform parameters, joint-angle limits
and a maximum angular velocity. Only the count of descriptors matters below. -/
structure JointDescr where
  geometry : List ℝ
  limit_min : ℝ
  limit_max : ℝ
  vel_max : ℝ

/-- A target pose given as a homogeneous 4x4 transform. -/
abbrev Pose44 : Type := Matrix (Fin 4) (Fin 4) ℝ

/-- Modelled from the spec: `ik_spherical_wrist` — the module
src/kinematics/inverse_kinematics.py is absent from the sources; only its tests and
callers are present. Spec section 4.3 step 4: "Fails with `ValueError` if `poseFlags`
is outside `[0,7]`, if the joint-descriptor list length is wrong, or if the position is
unreachable". The geometric solving core (steps 1-3) is abstracted as the parameter
`solve`; the spherical-wrist arm expects exactly 6 descriptors. -/
def ik_spherical_wrist (solve : List JointDescr → Pose44 → ℤ → Except PyError (List ℝ))
    (joints : List JointDescr) (tform : Pose44) (pose_flags : ℤ) :
    Except PyError (List ℝ) :=
  if pose_flags < 0 ∨ 7 < pose_flags then .error .valueError
  else if joints.length ≠ 6 then .error .valueError
  else solve joints tform pose_flags

/-- C8: for every target pose and every correctly sized joint-descriptor list, the
spherical-wrist inverse kinematics solver raises `ValueError` whenever `pose_flags`
lies outside `[0, 7]`, whatever the abstracted geometric core would compute. -/
theorem ik_spherical_wrist_bad_pose_flags
    (solve : List JointDescr → Pose44 → ℤ → Except PyError (List ℝ))
    (joints : List JointDescr) (tform : Pose44) (pose_flags : ℤ)
    (hlen : joints.length = 6) (hflag : pose_flags < 0 ∨ 7 < pose_flags) :
    ik_spherical_wrist solve joints tform pose_flags = .error .valueError := by
  rw [ik_spherical_wrist, if_pos hflag]

/-- Witness for C8: pose flag `-1` (one of the two flags used by
`test_ik_spherical_wrist_bad_pose`) with a 6-entry descriptor list. -/
theorem ik_spherical_wrist_bad_pose_flags_witness :
    ik_spherical_wrist (fun _ _ _ => .ok []) (List.replicate 6 ⟨[], 0, 0, 0⟩)
      (fun _ _ => 0) (-1) = .error .valueError :=
  ik_spherical_wrist_bad_pose_flags _ _ _ _ (by simp) (by norm_num)

/-- A 3-component numeric vector (a numpy array of length 3, over the reals). -/
structure Vec3 where
  x : ℝ
  y : ℝ
  z : ℝ

noncomputable def Vec3.add (a b : Vec3) : Vec3 := ⟨a.x + b.x, a.y + b.y, a.z + b.z⟩

noncomputable def Vec3.sub (a b : Vec3) : Vec3 := ⟨a.x - b.x, a.y - b.y, a.z - b.z⟩

noncomputable def Vec3.smul (c : ℝ) (v : Vec3) : Vec3 := ⟨c * v.x, c * v.y, c * v.z⟩

/-- Componentwise division by a scalar (`vec / s` in numpy). -/
noncomputable def Vec3.divs (v : Vec3) (s : ℝ) : Vec3 := ⟨v.x / s, v.y / s, v.z / s⟩

noncomputable def Vec3.cross (a b : Vec3) : Vec3 :=
  ⟨a.y * b.z - a.z * b.y, a.z * b.x - a.x * b.z, a.x * b.y - a.y * b.x⟩

noncomputable def Vec3.dot (a b : Vec3) : ℝ := a.x * b.x + a.y * b.y + a.z * b.z

/-- `numpy.sqrt(numpy.sum(v ** 2))`, the Euclidean length (`Coordinate.vector_len`). -/
noncomputable def Vec3.norm (v : Vec3) : ℝ :=
  Real.sqrt (v.x ^ 2 + v.y ^ 2 + v.z ^ 2)

/-- The plane selector of `AM_IR.MelfaCoordinateService.Plane` as consumed by
`circle_util`: the fixed planes XY/XZ/YZ and the free plane. -/
inductive Plane where
  | XY
  | XZ
  | YZ
  | FREE
deriving DecidableEq

/-- A numpy floating-point array value that is either an actual vector/number or the
all-NaN result of dividing the zero vector by its zero Euclidean norm (`0/0 = nan`
componentwise). NaN survives all further arithmetic: any dot product with the NaN
vector is NaN, `atan2` of a NaN argument is NaN, and every comparison with NaN is
false. -/
inductive NanOr (α : Type) where
  | val (v : α)
  | nan

/-- Embeds `get_circle_cs` (src/AM_IR/circle_util.py, lines 15-60). Kept from the
source: in the `XZ` branch the norm of the cross product is computed but never used and
the axis is not normalised; in the `FREE` branch with a degenerate (zero length) cross
product the source runs `assert numpy.dot(normal_vec, veca) == 0 and
numpy.dot(normal_vec, vecb)` — the second conjunct is the *truthiness* of the dot
product (any non-zero value passes), not a comparison with zero. A missing normal
vector makes the `assert` expression raise `TypeError`, re-raised as
`ValueError("Normal vector must be supplied...")`; a failing assert is re-raised as
`ValueError("Normal vector supplied is not normal to circle.")`.
The y-axis normalisation `y_axis / sqrt(sum(y_axis ** 2))` produces the all-NaN vector
when `y_axis0` is the zero vector (`0/0` componentwise) — this happens when the z-axis
is the zero vector (degenerate `XZ` cross product) or is parallel to the y reference
direction (the source's TODO) — and is exact real division otherwise; the NaN outcome
is `NanOr.nan`. The z-axis division in the `FREE` branch is guarded by `z_len != 0`
and therefore never produces NaN. -/
noncomputable def get_circle_cs (veca vecb : Vec3) (plane : Plane)
    (normal_vec : Option Vec3) : Except PyError (Vec3 × NanOr Vec3 × Vec3) :=
  let z_res : Except PyError Vec3 :=
    match plane with
    | .XY => .ok ⟨0, 0, 1⟩
    | .YZ => .ok ⟨-1, 0, 0⟩
    | .XZ =>
      let c := Vec3.cross veca vecb
      .ok ⟨c.x, c.y, |c.z|⟩
    | .FREE =>
      let c0 := Vec3.cross veca vecb
      let c := Vec3.mk c0.x c0.y |c0.z|
      let z_len := c.norm
      if z_len ≠ 0 then .ok (c.divs z_len)
      else
        match normal_vec with
        | none => .error .valueErrorNormalMissing
        | some n =>
          if Vec3.dot n veca = 0 ∧ Vec3.dot n vecb ≠ 0 then .ok n
          else .error .valueErrorNotNormal
  match z_res with
  | .error e => .error e
  | .ok z_axis =>
    let y_axis_r : Vec3 := ⟨0, 1, 0⟩
    let x_axis := Vec3.cross y_axis_r z_axis
    let y_axis0 := Vec3.cross z_axis x_axis
    let y_axis := if y_axis0.norm = 0 then NanOr.nan
      else NanOr.val (y_axis0.divs y_axis0.norm)
    .ok (x_axis, y_axis, z_axis)

/-- C3 (code bug): with collinear input vectors (zero-length cross product) under a
free-plane request and a supplied vector that is normal to both inputs,
`get_circle_cs` raises `ValueError("Normal vector supplied is not normal to circle.")`
instead of using the supplied vector as the z-axis: the degenerate-case assert demands
a *non-zero* `dot(normal_vec, vecb)` (truthiness), the opposite of what the claim and
the error message state. -/
theorem get_circle_cs_rejects_true_normal :
    get_circle_cs ⟨1, 0, 0⟩ ⟨-1, 0, 0⟩ Plane.FREE (some ⟨0, 0, 1⟩) =
      .error .valueErrorNotNormal ∧
    Vec3.dot ⟨0, 0, 1⟩ ⟨1, 0, 0⟩ = 0 ∧ Vec3.dot ⟨0, 0, 1⟩ ⟨-1, 0, 0⟩ = 0 := by
  refine ⟨?_, by norm_num [Vec3.dot], by norm_num [Vec3.dot]⟩
  simp only [get_circle_cs, Vec3.cross, Vec3.norm, Vec3.dot]
  norm_num [Real.sqrt_zero]

/-- Embeds `get_intermediate_points` (src/AM_IR/circle_util.py, lines 106-142).
In the full-circle branch (`abs(angle) == 2 * pi`) the source computes `i2 = (center -
start) + center` but every assignment to `intermediate` is commented out, so the
function falls through to `return intermediate` with the variable unbound and raises
`UnboundLocalError`. In the half-circle branch a missing `normal_vec` raises
`TypeError` (`Coordinate.cross` applied to `None`). -/
noncomputable def get_intermediate_points (angle : ℝ) (start target center : Vec3)
    (plane : Plane) (normal_vec : Option Vec3) : Except PyError Vec3 :=
  let middle := Vec3.add (Vec3.smul 0.5 (Vec3.sub target start)) start
  let cm := Vec3.sub middle center
  if |angle| = 2 * Real.pi then
    .error .unboundLocal
  else if |angle| = Real.pi then
    match normal_vec with
    | none => .error .typeError
    | some n =>
      let normal_r := Vec3.cross (Vec3.sub target center) n
      let normal_r2 := if angle < 0 then Vec3.smul (-1) normal_r else normal_r
      .ok (Vec3.add center normal_r2)
  else
    let cm_rescaled := Vec3.smul ((Vec3.sub center start).norm) (cm.divs cm.norm)
    if Real.pi > |angle| ∧ |angle| > 0 then .ok (Vec3.add center cm_rescaled)
    else if Real.pi < |angle| ∧ |angle| < 2 * Real.pi then
      .ok (Vec3.sub center cm_rescaled)
    else .error .notImplemented

/-- C4 (code bug): for an angle of magnitude exactly `2π` (either sign) and any start,
target, center, plane and normal vector, `get_intermediate_points` raises
`UnboundLocalError` instead of returning the diametrically opposite point
`center + (center - start)` that its commented-out code computes as `i2`. -/
theorem get_intermediate_points_full_circle (s t c : Vec3) (plane : Plane)
    (n : Option Vec3) :
    get_intermediate_points (2 * Real.pi) s t c plane n = .error .unboundLocal ∧
    get_intermediate_points (-(2 * Real.pi)) s t c plane n = .error .unboundLocal := by
  have h2 : |2 * Real.pi| = 2 * Real.pi := abs_of_pos (by positivity)
  constructor <;> simp [get_intermediate_points, h2, abs_neg]

/-- `math.atan2 y x`, embedded as the argument of the complex number `x + y*i`
(range `(-π, π]`, with `atan2 0 0 = 0`). -/
noncomputable def atan2 (y x : ℝ) : ℝ :=
  Complex.arg (Complex.ofReal x + Complex.ofReal y * Complex.I)

lemma atan2_bounds (y x : ℝ) : -Real.pi < atan2 y x ∧ atan2 y x ≤ Real.pi :=
  ⟨Complex.neg_pi_lt_arg _, Complex.arg_le_pi _⟩

/-- Embeds `get_angle` (src/AM_IR/circle_util.py, lines 85-103): the two radius
vectors are `start - center` and `target - center` (`get_np_vectors`); both are
projected onto the x- and y-axes of the circle frame (`project_vector` is a dot
product per axis) and the result is the difference of the two `atan2` angles.
When the frame's y-axis is the all-NaN vector, both y projections are NaN,
`math.atan2` returns NaN on a NaN argument, and NaN propagates through the
subtraction, so the returned angle is NaN. -/
noncomputable def get_angle (start target center : Vec3) (plane : Plane)
    (normal_vec : Option Vec3) : Except PyError (NanOr ℝ) :=
  let veca := Vec3.sub start center
  let vecb := Vec3.sub target center
  match get_circle_cs veca vecb plane normal_vec with
  | .error e => .error e
  | .ok (_, NanOr.nan, _) => .ok NanOr.nan
  | .ok (x_axis_c, NanOr.val y_axis_c, _) =>
    let x_b := Vec3.dot x_axis_c vecb
    let y_b := Vec3.dot y_axis_c vecb
    let x_a := Vec3.dot x_axis_c veca
    let y_a := Vec3.dot y_axis_c veca
    .ok (NanOr.val (atan2 y_b x_b - atan2 y_a x_a))

/-- Embeds `MelfaRobot.get_directed_angle` (src/printer_components/MelfaRobot.py,
lines 517-529), with `get_angle` supplied by the in-repo twin
src/AM_IR/circle_util.py (the module src/circle_util.py imported by MelfaRobot.py is
absent from the sources): the raw signed angle is shifted by a full turn whenever its
sign does not match the requested rotation direction. No normal vector is passed.
A NaN raw angle passes through unchanged: both sign comparisons (`angle <= 0`,
`angle >= 0`) are false on NaN, so neither full-turn shift fires and NaN is
returned. -/
noncomputable def MelfaRobot.get_directed_angle (start_pos target_pos center_pos : Vec3)
    (active_plane : Plane) (is_clockwise : Bool) : Except PyError (NanOr ℝ) :=
  match get_angle start_pos target_pos center_pos active_plane none with
  | .error e => .error e
  | .ok NanOr.nan => .ok NanOr.nan
  | .ok (NanOr.val angle) =>
    if is_clockwise = false then
      if angle ≤ 0 then .ok (NanOr.val (angle + 2 * Real.pi))
      else .ok (NanOr.val angle)
    else
      if 0 ≤ angle then .ok (NanOr.val (angle - 2 * Real.pi))
      else .ok (NanOr.val angle)

lemma get_angle_val_bounds (s t c : Vec3) (plane : Plane) (n : Option Vec3) (raw : ℝ)
    (h : get_angle s t c plane n = .ok (NanOr.val raw)) :
    -(2 * Real.pi) < raw ∧ raw < 2 * Real.pi := by
  cases hcs : get_circle_cs (Vec3.sub s c) (Vec3.sub t c) plane n with
  | error e =>
    simp only [get_angle, hcs] at h
    exact absurd h (by simp)
  | ok axes =>
    obtain ⟨xa, ya, za⟩ := axes
    cases ya with
    | nan =>
      simp only [get_angle, hcs] at h
      simp at h
    | val yv =>
      simp only [get_angle, hcs, Except.ok.injEq, NanOr.val.injEq] at h
      have hb1 := atan2_bounds (Vec3.dot yv (Vec3.sub t c)) (Vec3.dot xa (Vec3.sub t c))
      have hb2 := atan2_bounds (Vec3.dot yv (Vec3.sub s c)) (Vec3.dot xa (Vec3.sub s c))
      constructor
      · rw [← h]; linarith [hb1.1, hb2.2]
      · rw [← h]; linarith [hb1.2, hb2.1]

/-- C6 counterexample: with the XZ plane active (set by a `G18` command) and a
full-circle move — target equal to start, so the two radius vectors are collinear and
their cross product is the zero vector — the frame's z- and x-axes are zero and the
y-axis is the all-NaN vector `0/0`, so `get_directed_angle` returns NaN: not a number
at all, in particular neither strictly positive nor differing from the raw angle by
`0` or a full turn. This refutes the claim as stated for arbitrary start, target and
centre positions. -/
theorem get_directed_angle_counterexample :
    MelfaRobot.get_directed_angle ⟨1, 0, 0⟩ ⟨1, 0, 0⟩ ⟨0, 0, 0⟩ Plane.XZ false =
      .ok NanOr.nan ∧
    ∀ d : ℝ, MelfaRobot.get_directed_angle ⟨1, 0, 0⟩ ⟨1, 0, 0⟩ ⟨0, 0, 0⟩ Plane.XZ
      false ≠ .ok (NanOr.val d) := by
  have hcs : get_circle_cs (Vec3.sub ⟨1, 0, 0⟩ ⟨0, 0, 0⟩)
      (Vec3.sub ⟨1, 0, 0⟩ ⟨0, 0, 0⟩) Plane.XZ none =
      .ok (⟨0, 0, 0⟩, NanOr.nan, ⟨0, 0, 0⟩) := by
    simp [get_circle_cs, Vec3.cross, Vec3.sub, Vec3.norm]
  have hmain : MelfaRobot.get_directed_angle ⟨1, 0, 0⟩ ⟨1, 0, 0⟩ ⟨0, 0, 0⟩ Plane.XZ
      false = .ok NanOr.nan := by
    simp only [MelfaRobot.get_directed_angle, get_angle, hcs]
  refine ⟨hmain, fun d hd => ?_⟩
  rw [hmain] at hd
  simp at hd

/-- C6 (amended): whenever the raw signed angle computed by `get_angle` is an actual
number — only the degenerate inputs whose circle-frame y-axis is the all-NaN vector,
such as the XZ plane with collinear radius vectors, are excluded —
`get_directed_angle` returns a number that differs from the raw signed angle by
exactly `0` or a full turn `2π`, is strictly positive when `is_clockwise` is false,
and strictly negative when `is_clockwise` is true. -/
theorem get_directed_angle_spec (s t c : Vec3) (plane : Plane) (cw : Bool) (raw : ℝ)
    (hraw : get_angle s t c plane none = .ok (NanOr.val raw)) :
    ∃ d : ℝ, MelfaRobot.get_directed_angle s t c plane cw = .ok (NanOr.val d) ∧
      (d = raw ∨ d = raw + 2 * Real.pi ∨ d = raw - 2 * Real.pi) ∧
      (cw = false → 0 < d) ∧ (cw = true → d < 0) := by
  obtain ⟨hlow, hhigh⟩ := get_angle_val_bounds s t c plane none raw hraw
  cases cw with
  | false =>
    by_cases hle : raw ≤ 0
    · refine ⟨raw + 2 * Real.pi, ?_, ?_, ?_, ?_⟩
      · simp [MelfaRobot.get_directed_angle, hraw, hle]
      · right; left; rfl
      · intro _; linarith
      · intro h; exact absurd h (by simp)
    · refine ⟨raw, ?_, ?_, ?_, ?_⟩
      · simp [MelfaRobot.get_directed_angle, hraw, hle]
      · left; rfl
      · intro _; linarith
      · intro h; exact absurd h (by simp)
  | true =>
    by_cases hge : 0 ≤ raw
    · refine ⟨raw - 2 * Real.pi, ?_, ?_, ?_, ?_⟩
      · simp [MelfaRobot.get_directed_angle, hraw, hge]
      · right; right; rfl
      · intro h; exact absurd h (by simp)
      · intro _; linarith
    · refine ⟨raw, ?_, ?_, ?_, ?_⟩
      · simp [MelfaRobot.get_directed_angle, hraw, hge]
      · left; rfl
      · intro h; exact absurd h (by simp)
      · intro _; linarith

/-- Witness for C6 (amended): a zero-length arc in the XY plane (start = target),
counter-clockwise — the raw angle is `0`, the frame is exact (the XY y-axis never
degenerates), and the directed angle is the full positive turn `2π`. -/
theorem get_directed_angle_spec_witness :
    get_angle ⟨1, 0, 0⟩ ⟨1, 0, 0⟩ ⟨0, 0, 0⟩ Plane.XY none = .ok (NanOr.val 0) ∧
    ∃ d : ℝ, MelfaRobot.get_directed_angle ⟨1, 0, 0⟩ ⟨1, 0, 0⟩ ⟨0, 0, 0⟩ Plane.XY
        false = .ok (NanOr.val d) ∧
      (d = 0 ∨ d = 0 + 2 * Real.pi ∨ d = 0 - 2 * Real.pi) ∧
      (false = false → 0 < d) ∧ (false = true → d < 0) := by
  have hcs : get_circle_cs (Vec3.sub ⟨1, 0, 0⟩ ⟨0, 0, 0⟩)
      (Vec3.sub ⟨1, 0, 0⟩ ⟨0, 0, 0⟩) Plane.XY none =
      .ok (⟨1, 0, 0⟩, NanOr.val ⟨0, 1, 0⟩, ⟨0, 0, 1⟩) := by
    simp [get_circle_cs, Vec3.cross, Vec3.sub, Vec3.norm, Vec3.divs]
  have hraw : get_angle ⟨1, 0, 0⟩ ⟨1, 0, 0⟩ ⟨0, 0, 0⟩ Plane.XY none =
      .ok (NanOr.val 0) := by
    simp only [get_angle, hcs, Except.ok.injEq, NanOr.val.injEq]
    norm_num [Vec3.dot, Vec3.sub, atan2]
  exact ⟨hraw,
    get_directed_angle_spec ⟨1, 0, 0⟩ ⟨1, 0, 0⟩ ⟨0, 0, 0⟩ Plane.XY false 0 hraw⟩

/-- Modelled from the spec: an axis-labelled coordinate with optional ("unset")
components (spec section 3 `Pose`); the Coordinate class itself (src/Coordinate.py) is
absent from the sources. `values` lists the components in axis order. -/
structure Coord where
  values : List (Option ℝ)

/-- Modelled from the spec: `Coordinate.update_empty` resolves unset components
against a reference pose — "an 'unset' component must be resolved (filled from a
reference pose)". Every `none` component is replaced by the reference component. -/
def Coord.update_empty (c ref : Coord) : Coord :=
  ⟨List.zipWith (fun a b => a.orElse fun _ => b) c.values ref.values⟩

/-- A coordinate is complete when no component is unset. -/
def Coord.isComplete (c : Coord) : Bool := c.values.all fun a => a.isSome

/-- The XYZ components of a coordinate, for the geometric helpers; an unset or missing
component means the Python code would raise `TypeError` on `None` arithmetic. -/
def Coord.toVec3? (c : Coord) : Option Vec3 :=
  match c.values with
  | some x :: some y :: some z :: _ => some ⟨x, y, z⟩
  | _ => none

/-- An XYZ coordinate built from a vector (the circle utilities return XYZ points). -/
def Coord.ofVec3 (v : Vec3) : Coord := ⟨[some v.x, some v.y, some v.z]⟩

/-- The TCP-client interactions of the movement functions, abstracted from the R3
protocol strings: `ovrdRead` models `_get_ovrd_speed`, `mvsSpeed v` the `MVS_SPEED`
command of `set_speed`, `getPos` the `CURRENT_XYZABC` read of `get_pos`,
`linearIntrp c` the `LINEAR_INTRP` move command, `directCmd i c` the global position
assignment `P<i> = <point>` of `set_global_positions`, `circFull` / `circIm` /
`circCentre` the three circular interpolation commands (all referring to P1,P2,P3),
and `pollUntil c` the `cmp_response` polling for the target position. -/
inductive Msg where
  | ovrdRead
  | mvsSpeed (v : ℝ)
  | getPos
  | linearIntrp (c : Coord)
  | directCmd (idx : ℕ) (c : Coord)
  | circFull
  | circIm
  | circCentre
  | pollUntil (c : Coord)

/-- The coordinates a message emits as a device move command (each is converted with
`to_melfa_point`): the payloads of `LINEAR_INTRP` and of the global position
assignments used by the circular interpolation commands. -/
def Msg.coords : Msg → List Coord
  | .linearIntrp c => [c]
  | .directCmd _ c => [c]
  | _ => []

/-- Embeds the `mode = "linear"` path of `MelfaRobot.set_speed`
(src/printer_components/MelfaRobot.py, lines 334-354): a speed `≤ 0` raises
`SpeedBelowMinimum`; otherwise the override factor is read from the device (`ovrd` is
the device's reply) and the scaled speed value is sent. -/
noncomputable def set_speed (speed ovrd : ℝ) : List Msg × Except PyError Unit :=
  if speed ≤ 0 then ([], .error .speedBelowMinimum)
  else ([Msg.ovrdRead, Msg.mvsSpeed (speed / (ovrd / 100))], .ok ())

/-- Embeds `MelfaRobot.linear_move_poll` (src/printer_components/MelfaRobot.py, lines
405-445) as a trace-producing function. Device inputs are parameters: `ovrd` is the
override reply consumed by `set_speed`, `reported` the position parsed from the
`get_pos` reply, `tv` the time/speed pair produced by the response polling. The
returned coordinate is `target_pos` as left after the call (the source mutates it in
place via `update_empty`). -/
noncomputable def MelfaRobot.linear_move_poll (target_pos : Coord) (speed : Option ℝ)
    (current_pos : Option Coord) (ovrd : ℝ) (reported : Coord) (tv : ℝ × ℝ) :
    List Msg × Except PyError ((Option ℝ × Option ℝ) × Coord) :=
  match (match speed with
         | none => ([], Except.ok ())
         | some s => set_speed s ovrd) with
  | (tr1, .error e) => (tr1, .error e)
  | (tr1, .ok _) =>
    if 0 < target_pos.values.length ∧ target_pos.values.any (fun a => a.isSome) = true
    then
      match (match current_pos with
             | none => ([Msg.getPos], reported)
             | some cp => ([], cp)) with
      | (tr2, cur) =>
        (tr1 ++ tr2 ++ [Msg.linearIntrp (target_pos.update_empty cur),
          Msg.pollUntil (target_pos.update_empty cur)],
          .ok ((some tv.1, some tv.2), target_pos.update_empty cur))
    else
      (tr1, .ok ((none, none), target_pos))

/-- Embeds `MelfaRobot.circular_move_poll` (src/printer_components/MelfaRobot.py,
lines 447-515) as a trace-producing function. The start position is determined first
(`reported`, the parsed `get_pos` reply, when `start_pos?` is `none`), then the speed
is set, then — only if the target carries any set component — target and centre are
resolved against the start position, the directed angle decides among the three
interpolation commands, and intermediate points (resolved against the start position
as well) are used for arcs of 180° or more. Unset XYZ components inside the angle
helpers raise `TypeError`, modelled via `Coord.toVec3?`. -/
noncomputable def MelfaRobot.circular_move_poll (target_pos center_pos : Coord)
    (is_clockwise : Bool) (speed : Option ℝ) (start_pos? : Option Coord)
    (active_plane : Plane) (ovrd : ℝ) (reported : Coord) :
    List Msg × Except PyError Unit :=
  match (match start_pos? with
         | none => ([Msg.getPos], reported)
         | some spos => ([], spos)) with
  | (tr0, start_pos) =>
    match (match speed with
           | none => ([], Except.ok ())
           | some s => set_speed s ovrd) with
    | (tr1, .error e) => (tr0 ++ tr1, .error e)
    | (tr1, .ok _) =>
      if 0 < target_pos.values.length ∧ target_pos.values.any (fun a => a.isSome) = true
      then
        match start_pos.toVec3?, (target_pos.update_empty start_pos).toVec3?,
            (center_pos.update_empty start_pos).toVec3? with
        | some sv, some tvec, some cvec =>
          (match MelfaRobot.get_directed_angle sv tvec cvec active_plane is_clockwise
           with
           | .error e => (tr0 ++ tr1, .error e)
           | .ok NanOr.nan =>
             -- abs(nan) >= pi is false in Python, so a NaN angle takes the
             -- centre-interpolation branch
             (tr0 ++ tr1 ++ [Msg.directCmd 1 start_pos,
               Msg.directCmd 2 (target_pos.update_empty start_pos),
               Msg.directCmd 3 (center_pos.update_empty start_pos), Msg.circCentre,
               Msg.pollUntil (target_pos.update_empty start_pos)], .ok ())
           | .ok (NanOr.val angle) =>
             if Real.pi ≤ |angle| then
               match get_intermediate_points angle sv tvec cvec active_plane none with
               | .error e => (tr0 ++ tr1, .error e)
               | .ok imv =>
                 if |angle| = 2 * Real.pi then
                   match ((Coord.ofVec3 imv).update_empty start_pos).toVec3? with
                   | some imvec =>
                     (match MelfaRobot.get_directed_angle sv imvec cvec active_plane
                         is_clockwise with
                      | .error e => (tr0 ++ tr1, .error e)
                      | .ok NanOr.nan =>
                        -- every magnitude comparison in get_intermediate_point is
                        -- false on a NaN angle, so it raises NotImplementedError
                        (tr0 ++ tr1, .error .notImplemented)
                      | .ok (NanOr.val angle2) =>
                        match get_intermediate_points angle2 sv imvec cvec active_plane
                            none with
                        | .error e => (tr0 ++ tr1, .error e)
                        | .ok imv2 =>
                          (tr0 ++ tr1 ++ [Msg.directCmd 1 start_pos,
                            Msg.directCmd 2 ((Coord.ofVec3 imv2).update_empty start_pos),
                            Msg.directCmd 3 ((Coord.ofVec3 imv).update_empty start_pos),
                            Msg.circFull,
                            Msg.pollUntil (target_pos.update_empty start_pos)], .ok ()))
                   | none => (tr0 ++ tr1, .error .typeError)
                 else
                   (tr0 ++ tr1 ++ [Msg.directCmd 1 start_pos,
                     Msg.directCmd 2 ((Coord.ofVec3 imv).update_empty start_pos),
                     Msg.directCmd 3 (target_pos.update_empty start_pos), Msg.circIm,
                     Msg.pollUntil (target_pos.update_empty start_pos)], .ok ())
             else
               (tr0 ++ tr1 ++ [Msg.directCmd 1 start_pos,
                 Msg.directCmd 2 (target_pos.update_empty start_pos),
                 Msg.directCmd 3 (center_pos.update_empty start_pos), Msg.circCentre,
                 Msg.pollUntil (target_pos.update_empty start_pos)], .ok ()))
        | _, _, _ => (tr0 ++ tr1, .error .typeError)
      else
        (tr0 ++ tr1, .ok ())

lemma update_empty_complete_aux (cv rv : List (Option ℝ))
    (h : ∀ b ∈ rv, b.isSome = true) :
    ∀ a ∈ List.zipWith (fun a b => a.orElse fun _ => b) cv rv, a.isSome = true := by
  induction cv generalizing rv with
  | nil => simp
  | cons c cs ih =>
    cases rv with
    | nil => simp
    | cons r rs =>
      intro a ha
      simp only [List.zipWith_cons_cons, List.mem_cons] at ha
      rcases ha with rfl | ha
      · cases c with
        | none => simpa using h r (by simp)
        | some x => simp
      · exact ih rs (fun b hb => h b (List.mem_cons_of_mem r hb)) a ha

lemma update_empty_complete (c ref : Coord) (h : ref.isComplete = true) :
    (c.update_empty ref).isComplete = true := by
  simp only [Coord.isComplete, List.all_eq_true] at h ⊢
  exact update_empty_complete_aux c.values ref.values h

/-- All coordinates emitted as device move commands in a trace are complete. -/
def emitted_resolved (tr : List Msg) : Prop :=
  ∀ m ∈ tr, ∀ co ∈ m.coords, co.isComplete = true

lemma emitted_resolved_nil : emitted_resolved [] := by
  intro m hm
  exact absurd hm (List.not_mem_nil m)

lemma emitted_resolved_append {t1 t2 : List Msg} (h1 : emitted_resolved t1)
    (h2 : emitted_resolved t2) : emitted_resolved (t1 ++ t2) := by
  intro m hm
  rcases List.mem_append.mp hm with h | h
  exacts [h1 m h, h2 m h]

lemma emitted_resolved_cons {m : Msg} {t : List Msg}
    (hm : ∀ co ∈ m.coords, co.isComplete = true) (ht : emitted_resolved t) :
    emitted_resolved (m :: t) := by
  intro m' hm'
  rcases List.mem_cons.mp hm' with rfl | h
  exacts [hm, ht m' h]

lemma emitted_resolved_coordfree {m : Msg} (h : m.coords = []) :
    ∀ co ∈ m.coords, co.isComplete = true := by
  intro co hco
  rw [h] at hco
  exact absurd hco (List.not_mem_nil co)

lemma set_speed_resolved (s o : ℝ) : emitted_resolved (set_speed s o).1 := by
  rw [set_speed]
  split
  · exact emitted_resolved_nil
  · exact emitted_resolved_cons (emitted_resolved_coordfree rfl)
      (emitted_resolved_cons (emitted_resolved_coordfree rfl) emitted_resolved_nil)


lemma directCmd_resolved (i : ℕ) (p : Coord) (hp : p.isComplete = true) :
    ∀ co ∈ (Msg.directCmd i p).coords, co.isComplete = true := by
  intro co hco
  simp only [Msg.coords, List.mem_singleton] at hco
  subst hco
  exact hp

lemma linearIntrp_resolved (p : Coord) (hp : p.isComplete = true) :
    ∀ co ∈ (Msg.linearIntrp p).coords, co.isComplete = true := by
  intro co hco
  simp only [Msg.coords, List.mem_singleton] at hco
  subst hco
  exact hp

lemma sp_match_resolved (speed : Option ℝ) (ovrd : ℝ) (tr1 : List Msg)
    (r : Except PyError Unit)
    (h : (match speed with
          | none => ([], Except.ok ())
          | some s => set_speed s ovrd) = (tr1, r)) :
    emitted_resolved tr1 := by
  rcases speed with _ | s
  · have h2 : (([], Except.ok ()) : List Msg × Except PyError Unit) = (tr1, r) := h
    injection h2 with ha hb
    rw [← ha]
    exact emitted_resolved_nil
  · have h2 : set_speed s ovrd = (tr1, r) := h
    have hr := set_speed_resolved s ovrd
    rw [h2] at hr
    exact hr

lemma st_match_complete (opt : Option Coord) (reported : Coord) (tr : List Msg)
    (cpos : Coord)
    (h : (match opt with
          | none => ([Msg.getPos], reported)
          | some cp => ([], cp)) = (tr, cpos))
    (hopt : ∀ cp, opt = some cp → cp.isComplete = true)
    (hrep : reported.isComplete = true) :
    emitted_resolved tr ∧ cpos.isComplete = true := by
  rcases opt with _ | cp
  · have h2 : (([Msg.getPos], reported) : List Msg × Coord) = (tr, cpos) := h
    injection h2 with ha hb
    refine ⟨?_, ?_⟩
    · rw [← ha]
      exact emitted_resolved_cons (emitted_resolved_coordfree rfl) emitted_resolved_nil
    · rw [← hb]
      exact hrep
  · have h2 : (([], cp) : List Msg × Coord) = (tr, cpos) := h
    injection h2 with ha hb
    refine ⟨?_, ?_⟩
    · rw [← ha]
      exact emitted_resolved_nil
    · rw [← hb]
      exact hopt cp rfl

lemma linear_send_resolved (tr1 tr2 : List Msg) (h1 : emitted_resolved tr1)
    (h2 : emitted_resolved tr2) (t2 : Coord) (ht : t2.isComplete = true) :
    emitted_resolved
      (tr1 ++ tr2 ++ [Msg.linearIntrp t2, Msg.pollUntil t2]) := by
  refine emitted_resolved_append (emitted_resolved_append h1 h2) ?_
  exact emitted_resolved_cons (linearIntrp_resolved t2 ht)
    (emitted_resolved_cons (emitted_resolved_coordfree rfl) emitted_resolved_nil)

lemma circ_send_resolved (tr : List Msg) (h : emitted_resolved tr)
    (p1 p2 p3 tpoll : Coord) (h1 : p1.isComplete = true) (h2 : p2.isComplete = true)
    (h3 : p3.isComplete = true) (circ : Msg) (hcirc : circ.coords = []) :
    emitted_resolved (tr ++ [Msg.directCmd 1 p1, Msg.directCmd 2 p2,
      Msg.directCmd 3 p3, circ, Msg.pollUntil tpoll]) := by
  refine emitted_resolved_append h ?_
  exact emitted_resolved_cons (directCmd_resolved 1 p1 h1)
    (emitted_resolved_cons (directCmd_resolved 2 p2 h2)
      (emitted_resolved_cons (directCmd_resolved 3 p3 h3)
        (emitted_resolved_cons (emitted_resolved_coordfree hcirc)
          (emitted_resolved_cons (emitted_resolved_coordfree rfl)
            emitted_resolved_nil))))

lemma linear_move_poll_resolved (target : Coord) (speed : Option ℝ)
    (current_pos : Option Coord) (ovrd : ℝ) (reported : Coord) (tv : ℝ × ℝ)
    (hcur : ∀ cp, current_pos = some cp → cp.isComplete = true)
    (hrep : reported.isComplete = true) :
    emitted_resolved
      (MelfaRobot.linear_move_poll target speed current_pos ovrd reported tv).1 := by
  unfold MelfaRobot.linear_move_poll
  split
  next tr1 e heq => exact sp_match_resolved speed ovrd tr1 _ heq
  next tr1 u heq =>
    have h1 := sp_match_resolved speed ovrd tr1 _ heq
    split
    · split
      next tr2 cur heq2 =>
        obtain ⟨h2, hc2⟩ :=
          st_match_complete current_pos reported tr2 cur heq2 hcur hrep
        exact linear_send_resolved tr1 tr2 h1 h2 _
          (update_empty_complete target cur hc2)
    · exact h1

lemma circular_move_poll_resolved (target center : Coord) (cw : Bool)
    (speed : Option ℝ) (start_pos? : Option Coord) (plane : Plane) (ovrd : ℝ)
    (reported : Coord)
    (hstart : ∀ spos, start_pos? = some spos → spos.isComplete = true)
    (hrep : reported.isComplete = true) :
    emitted_resolved
      (MelfaRobot.circular_move_poll target center cw speed start_pos? plane ovrd
        reported).1 := by
  unfold MelfaRobot.circular_move_poll
  split
  next tr0 start_pos heq0 =>
    obtain ⟨h0, hsc⟩ :=
      st_match_complete start_pos? reported tr0 start_pos heq0 hstart hrep
    split
    next tr1 e heq1 =>
      exact emitted_resolved_append h0 (sp_match_resolved speed ovrd tr1 _ heq1)
    next tr1 u heq1 =>
      have h1 : emitted_resolved (tr0 ++ tr1) :=
        emitted_resolved_append h0 (sp_match_resolved speed ovrd tr1 _ heq1)
      have hT : (target.update_empty start_pos).isComplete = true :=
        update_empty_complete target start_pos hsc
      have hC : (center.update_empty start_pos).isComplete = true :=
        update_empty_complete center start_pos hsc
      split
      · split
        next sv tvec cvec =>
          split
          next e heq => exact h1
          next heq =>
            exact circ_send_resolved (tr0 ++ tr1) h1 _ _ _ _ hsc hT hC
              Msg.circCentre rfl
          next angle heq =>
            split
            · split
              next e heq2 => exact h1
              next imv heq2 =>
                have hI : ((Coord.ofVec3 imv).update_empty start_pos).isComplete =
                    true := update_empty_complete (Coord.ofVec3 imv) start_pos hsc
                split
                · split
                  next imvec heqv =>
                    split
                    next e heq3 => exact h1
                    next heq3 => exact h1
                    next angle2 heq3 =>
                      split
                      next e heq4 => exact h1
                      next imv2 heq4 =>
                        exact circ_send_resolved (tr0 ++ tr1) h1 _ _ _ _ hsc
                          (update_empty_complete (Coord.ofVec3 imv2) start_pos hsc)
                          hI Msg.circFull rfl
                  next heqv => exact h1
                · exact circ_send_resolved (tr0 ++ tr1) h1 _ _ _ _ hsc hI hT
                    Msg.circIm rfl
            · exact circ_send_resolved (tr0 ++ tr1) h1 _ _ _ _ hsc hT hC
                Msg.circCentre rfl
        next => exact h1
      · exact h1

/-- C7: every coordinate emitted as a device move command has all unset components
resolved from a reference pose first. `linear_move_poll` and `circular_move_poll` pass
the target (and centre and intermediate points) through `update_empty` with the
current/start position before converting them to Melfa points, so — provided the
reference pose (the caller-supplied current/start position, or the device-reported
position when none is supplied) is complete — every coordinate payload of an emitted
`LINEAR_INTRP` or global-position command is complete. -/
theorem move_poll_emits_resolved (target center : Coord) (speed : Option ℝ)
    (current_pos start_pos? : Option Coord) (cw : Bool) (plane : Plane) (ovrd : ℝ)
    (reported : Coord) (tv : ℝ × ℝ)
    (hcur : ∀ cp, current_pos = some cp → cp.isComplete = true)
    (hstart : ∀ spos, start_pos? = some spos → spos.isComplete = true)
    (hrep : reported.isComplete = true) :
    (∀ m ∈ (MelfaRobot.linear_move_poll target speed current_pos ovrd reported tv).1,
      ∀ co ∈ m.coords, co.isComplete = true) ∧
    (∀ m ∈ (MelfaRobot.circular_move_poll target center cw speed start_pos? plane ovrd
        reported).1, ∀ co ∈ m.coords, co.isComplete = true) :=
  ⟨linear_move_poll_resolved target speed current_pos ovrd reported tv hcur hrep,
    circular_move_poll_resolved target center cw speed start_pos? plane ovrd reported
      hstart hrep⟩

/-- Witness for C7: a target with an unset component, moved with the device-reported
position `(0, 0, 0)` as the reference pose. -/
theorem move_poll_emits_resolved_witness :
    (∀ m ∈ (MelfaRobot.linear_move_poll (Coord.mk [none, none, some 1]) none none 1
        (Coord.mk [some 0, some 0, some 0]) (0, 0)).1,
      ∀ co ∈ m.coords, co.isComplete = true) ∧
    (∀ m ∈ (MelfaRobot.circular_move_poll (Coord.mk [none, none, some 1])
        (Coord.mk [some 0, some 0, some 0]) false none none Plane.XY 1
        (Coord.mk [some 0, some 0, some 0])).1,
      ∀ co ∈ m.coords, co.isComplete = true) :=
  move_poll_emits_resolved (Coord.mk [none, none, some 1])
    (Coord.mk [some 0, some 0, some 0]) none none none false Plane.XY 1
    (Coord.mk [some 0, some 0, some 0]) (0, 0)
    (fun _ h => Option.noConfusion h) (fun _ h => Option.noConfusion h) rfl

/-- C10: when no speed is given and the target position carries no set component
(either no values at all or all components `None`), `linear_move_poll` sends nothing
to the TCP client (no speed command, no position read, no move command, no polling),
leaves the target unmutated, and returns `(None, None)`. -/
theorem linear_move_poll_skip (target : Coord) (current_pos : Option Coord) (ovrd : ℝ)
    (reported : Coord) (tv : ℝ × ℝ)
    (h : target.values.all (fun a => a.isNone) = true) :
    MelfaRobot.linear_move_poll target none current_pos ovrd reported tv =
      ([], .ok ((none, none), target)) := by
  have hany : target.values.any (fun a => a.isSome) = false := by
    rw [List.any_eq_false]
    intro a ha
    have hnone := (List.all_eq_true.mp h) a ha
    simp only [Option.isNone_iff_eq_none] at hnone
    subst hnone
    simp
  have hcond : ¬(0 < target.values.length ∧
      target.values.any (fun a => a.isSome) = true) := by
    rintro ⟨hl, ha⟩
    rw [hany] at ha
    exact Bool.noConfusion ha
  unfold MelfaRobot.linear_move_poll
  split
  next tr1 e heq =>
    have h2 : (([], Except.ok ()) :
        List Msg × Except PyError Unit) = (tr1, Except.error e) := heq
    injection h2 with ha hb
    exact Except.noConfusion hb
  next tr1 u heq =>
    have h2 : (([], Except.ok ()) :
        List Msg × Except PyError Unit) = (tr1, Except.ok u) := heq
    injection h2 with ha hb
    rw [if_neg hcond, ← ha]

/-- Witness for C10: an all-unset three-component target with no speed. -/
theorem linear_move_poll_skip_witness :
    MelfaRobot.linear_move_poll (Coord.mk [none, none, none]) none none 1
      (Coord.mk [some 0, some 0, some 0]) (0, 0) =
      ([], .ok ((none, none), Coord.mk [none, none, none])) :=
  linear_move_poll_skip (Coord.mk [none, none, none]) none 1
    (Coord.mk [some 0, some 0, some 0]) (0, 0) rfl
